import Mathlib

/-! Verification of the task discovery and namespace-composition engine of the
taskfiles repository: a shallow embedding of the functions of `_discovery.py`
and of `src/taskfiles/__init__.py`, with theorems about failure isolation on
module loading, namespace merging, plugin resolution and idempotence of the
discovery entry points. -/

namespace Taskfiles

/-- A task unit: a named callable.  The field `impl` is an opaque identifier
standing for the implementation object, so two tasks with the same name but
different bodies can be told apart. -/
structure Task where
  name : String
  impl : Nat
deriving DecidableEq, Repr

/-- One entry of a Python module dictionary: either a `Task` instance or any
other value (function, constant, imported name), which discovery ignores
(the `isinstance(task, Task)` checks in `populate` of `_discovery.py` and in
`iter_tasks_module` of `src/taskfiles/__init__.py`). -/
inductive Member where
  | task (t : Task)
  | other
deriving DecidableEq, Repr

/-- A Python module as the discovery engine sees it: its declared identity
(the last component of its dotted name) and its member dictionary in
insertion order. -/
structure Module where
  name : String
  members : List Member
deriving DecidableEq, Repr

/-- Embedding of `iter_tasks_module` of `src/taskfiles/__init__.py` and of the
loop body of `populate` in `_discovery.py`: the task members of a module, in
dictionary order. -/
def moduleTasks (m : Module) : List Task :=
  m.members.filterMap fun mem =>
    match mem with
    | .task t => some t
    | .other => none

/-- Python-dictionary style update on an association list: replace the value
at the first occurrence of the key, keeping its position, else append the new
binding at the end. -/
def setKey (k : String) (v : α) : List (String × α) → List (String × α)
  | [] => [(k, v)]
  | (k1, v1) :: rest => if k1 = k then (k, v) :: rest else (k1, v1) :: setKey k v rest

/-- Python-dictionary lookup on an association list. -/
def findKey (k : String) : List (String × α) → Option α
  | [] => none
  | (k1, v1) :: rest => if k1 = k then some v1 else findKey k rest

/-- Modelled from the spec: the `Namespace` accumulator.  The concrete class
(invoke's `Collection`) is an external collaborator whose sources are not part
of this repository; the spec describes it as "a mapping from task name to
TaskUnit ... plus a side-table of named sub-collections", where adding an
entry under an already-used name silently replaces the earlier entry
(documented last-write-wins) and no operation raises for an empty module. -/
inductive Collection where
  | mk (tasks : List (String × Task)) (collections : List (String × Collection))

/-- Projection to the flat task table of a collection. -/
def Collection.tasks : Collection → List (String × Task)
  | .mk ts _ => ts

/-- Projection to the sub-collection table of a collection. -/
def Collection.collections : Collection → List (String × Collection)
  | .mk _ cs => cs

/-- Fresh empty namespace, as built once per discovery run. -/
def Collection.empty : Collection := .mk [] []

/-- Modelled from the spec: `add_task` registers a task under its own name,
silently replacing an earlier task with the same name. -/
def Collection.addTask (c : Collection) (t : Task) : Collection :=
  .mk (setKey t.name t c.tasks) c.collections

/-- Modelled from the spec: `add_collection` registers a sub-namespace under
the given name, silently replacing an earlier sub-namespace with the same
name. -/
def Collection.addCollection (c : Collection) (name : String) (sub : Collection) :
    Collection :=
  .mk c.tasks (setKey name sub c.collections)

/-- Unqualified task lookup in a namespace. -/
def Collection.findTask (c : Collection) (name : String) : Option Task :=
  findKey name c.tasks

/-- Sub-namespace lookup in a namespace. -/
def Collection.findSub (c : Collection) (name : String) : Option Collection :=
  findKey name c.collections

/-- Qualified lookup: resolve a dotted path such as `["git", "push"]` to a
task, walking sub-namespaces for every component but the last. -/
def Collection.resolve : Collection → List String → Option Task
  | _, [] => none
  | c, [n] => c.findTask n
  | c, n :: rest =>
    match c.findSub n with
    | some sub => sub.resolve rest
    | none => none

/-- Fold a list of tasks into a name-keyed table, later tasks replacing
earlier ones of the same name. -/
def tasksFold (ts : List Task) : List (String × Task) :=
  ts.foldl (fun acc t => setKey t.name t acc) []

/-- Modelled from the spec: `Collection.from_module` builds a new collection
holding the full set of tasks found directly on the module. -/
def Collection.fromModule (m : Module) : Collection :=
  .mk (tasksFold (moduleTasks m)) []

/-- Embedding of the flat-merge loop `for task in ...: ns.add_task(task)`
used by `get_root_ns` for the non-split case, the core module and the local
tasks. -/
def addTasks (c : Collection) (ts : List Task) : Collection :=
  ts.foldl (fun acc t => acc.addTask t) c

/-- Exception classes the engine distinguishes: `import_submodules` catches
`ImportError` and `SyntaxError` only, while `import_with_exception_details`
catches every `Exception`. -/
inductive ExcKind where
  | importError
  | syntaxError
  | otherError
deriving DecidableEq, Repr

/-- Outcome of executing `importlib.import_module` on one import string. -/
inductive ImportResult where
  | ok (m : Module)
  | raises (e : ExcKind)
deriving DecidableEq, Repr

/-- The import system as a pure map from dotted import string to outcome:
`sys.modules` caching makes a repeated import of the same string return the
same module object, and a failed import is re-executed with the same outcome
while the filesystem is unchanged. -/
structure ImportEnv where
  resolve : String → ImportResult

/-- Python-level errors that can escape the discovery functions: use of a
never-assigned local variable, attribute access on `None`, and a propagated
exception from a module import. -/
inductive PyError where
  | nameError
  | attributeError
  | exc (e : ExcKind)
deriving DecidableEq, Repr

/-- Character-level form of `name.startswith("_")`, written on the underlying
character list so that concrete runs evaluate inside the kernel. -/
def startsWithUnderscore (s : String) : Bool :=
  match s.data with
  | [] => false
  | c :: _ => c == '_'

/-- Character-level form of `name.endswith(".py")`. -/
def endsWithPy (s : String) : Bool :=
  match s.data.reverse with
  | 'y' :: 'p' :: '.' :: _ => true
  | _ => false

/-- Character-level form of Python's `name.replace(".py", "")`: scan left to
right, removing every non-overlapping occurrence of `.py`. -/
def dropPy : List Char → List Char
  | '.' :: 'p' :: 'y' :: rest => dropPy rest
  | c :: rest => c :: dropPy rest
  | [] => []

/-- String wrapper of `dropPy`, the embedding of `name.replace(".py", "")`. -/
def replacePy (s : String) : String := ⟨dropPy s.data⟩

/-- Embedding of `is_a_task_module` of `_discovery.py`: exclude filenames
with the private marker and the two reserved filenames. -/
def is_a_task_module (name : String) : Bool :=
  if startsWithUnderscore name then false
  else if name = "tasks.py" then false
  else if name = "conftest.py" then false
  else true

/-- Embedding of `import_with_exception_details` of `_discovery.py`: try the
module; on any exception print a single diagnostic line naming the module on
stderr and return no module.  The second component lists the stderr lines,
each recorded as the module name the line references. -/
def import_with_exception_details (env : ImportEnv) (importString name : String) :
    Option Module × List String :=
  match env.resolve importString with
  | .ok m => (some m, [])
  | .raises _ => (none, [name])

/-- Embedding of one loop iteration of `import_submodules` of
`src/taskfiles/__init__.py`: the accumulator holds the imported submodules and
the logged error lines, or the exception that escaped.  Only `ImportError`
and `SyntaxError` are caught (one logged line each, naming the submodule);
any other exception propagates. -/
def importSubStep (env : ImportEnv) (packageName : String)
    (acc : Except PyError (List (String × Module) × List String)) (name : String) :
    Except PyError (List (String × Module) × List String) :=
  match acc with
  | .error e => .error e
  | .ok (mods, logs) =>
    match env.resolve (packageName ++ "." ++ name) with
    | .ok m => .ok (setKey name m mods, logs)
    | .raises .importError => .ok (mods, logs ++ [name])
    | .raises .syntaxError => .ok (mods, logs ++ [name])
    | .raises e => .error (.exc e)

/-- Embedding of `import_submodules` of `src/taskfiles/__init__.py`, with
`names` the submodule names that `pkgutil.walk_packages` yields for the
package. -/
def import_submodules (env : ImportEnv) (packageName : String)
    (names : List String) : Except PyError (List (String × Module) × List String) :=
  names.foldl (importSubStep env packageName) (.ok ([], []))

/-- Embedding of the built-in merge of one submodule in `get_root_ns`: with
`split` on, a submodule keyed `core` has its tasks added flat to the parent
and every other submodule becomes a sub-collection named after the module
itself; with `split` off, the tasks of the module are added flat. -/
def rootStep (split : Bool) (ns : Collection) (entry : String × Module) : Collection :=
  if split then
    if entry.1 ≠ "core" then
      ns.addCollection entry.2.name (Collection.fromModule entry.2)
    else
      (Collection.fromModule entry.2).tasks.foldl (fun acc kv => acc.addTask kv.2) ns
  else
    addTasks ns (moduleTasks entry.2)

/-- Embedding of the built-in phase of `get_root_ns`: drop the submodules
whose key starts with the private marker and fold the rest with `rootStep`
into a fresh namespace. -/
def rootBuiltin (split : Bool) (mods : List (String × Module)) : Collection :=
  (mods.filter fun kv => !(startsWithUnderscore kv.1)).foldl (rootStep split) Collection.empty

/-- Embedding of `get_root_ns` of `src/taskfiles/__init__.py`.  Phase one
loads every walked submodule (propagating any exception that is neither an
`ImportError` nor a `SyntaxError`) and folds the valid ones with `rootStep`;
phase two imports `local_tasks` and on success always adds its tasks flat —
an `ImportError` there is logged at debug level only, any other exception is
logged as an error; the plugin block of this function computes paths and logs
but adds nothing to the namespace.  The returned strings are the error-level
log lines, each recorded as the module name it references. -/
def get_root_ns (env : ImportEnv) (split : Bool) (names : List String) :
    Except PyError (Collection × List String) :=
  match import_submodules env "taskfiles" names with
  | .error e => .error e
  | .ok (allSubmodules, logs) =>
    let ns := rootBuiltin split allSubmodules
    match env.resolve "local_tasks" with
    | .ok localTasks => .ok (addTasks ns (moduleTasks localTasks), logs)
    | .raises .importError => .ok (ns, logs)
    | .raises _ => .ok (ns, logs ++ ["local_tasks"])

/-- Embedding of `populate` of `find_and_import_tasks` in `_discovery.py`:
with the module-name marker kept, register the module as a sub-collection
and report success unconditionally; otherwise add each task member flat,
reporting whether any addition happened. -/
def populate (keep : Bool) (ns : Collection) (m : Module) (name : String) :
    Collection × Bool :=
  if keep then
    (ns.addCollection name (Collection.fromModule m), true)
  else
    m.members.foldl
      (fun acc mem =>
        match mem with
        | .task t => (acc.1.addTask t, true)
        | .other => acc)
      (ns, false)

/-- Embedding of `p.stem` of `pathlib` for the glob results the engine
handles: the filename without its final dot-suffix (a name with no dot is
returned unchanged). -/
def stem (s : String) : String :=
  match s.data.reverse.dropWhile (fun c => !(c == '.')) with
  | [] => s
  | _ :: rest => ⟨rest.reverse⟩

/-- The mutable process-wide state `find_and_import_tasks` touches: the
`TASKS_PLUGIN_DIRS` list (appended to whenever the internal plugin package
exists) and `sys.path` (extended by `add_repo_root_to_sys_path` and by the
loose-file fallback). -/
structure GlobalState where
  pluginDirs : List String
  sysPath : List String
deriving DecidableEq, Repr

/-- Accumulator of the task-file loop of `find_and_import_tasks`: the growing
namespace, the stderr lines (each recorded as the module name it references)
and the last value assigned to the loop-local variable `module`, which the
later local-tasks block can read — `none` means the variable was never
assigned, `some none` that the last import failed and left it `None`. -/
structure BuiltinAcc where
  ns : Collection
  errs : List String
  lastModule : Option (Option Module)

/-- Everything one `find_and_import_tasks` run produces or leaks: the
namespace, the stderr and stdout lines, and the final global state. -/
structure RunAcc where
  ns : Collection
  errs : List String
  out : List String
  st : GlobalState

/-- Resolved kind of a directory entry, after the symlink handling of
`is_path_a_file` and `is_path_a_folder` of `_discovery.py` (a symlink counts
as its target's kind, `__pycache__` and anything unresolved is neither). -/
inductive EntryKind where
  | file
  | folder
  | other
deriving DecidableEq, Repr

/-- One entry of the internal `_plugins` directory: its name, resolved kind
and, for folders, the names that `plugin.glob("*.py")` yields for the
loose-file fallback. -/
structure PluginEntry where
  name : String
  kind : EntryKind
  pyFiles : List String
deriving DecidableEq, Repr

/-- The filesystem as one `find_and_import_tasks` run reads it. -/
structure DiscoveryFS where
  /-- names yielded by `Path(path).glob("*.py")` in the discovery root -/
  rootPyFiles : List String
  /-- whether `add_repo_root_to_sys_path` finds a repo toplevel holding a
  `local_tasks.py` (and then prepends that toplevel to `sys.path`) -/
  hasLocalTasks : Bool
  /-- string form of the repo toplevel inserted into `sys.path` -/
  repoToplevel : String
  /-- result of `internal_plugins.exists()` -/
  pluginsDirExists : Bool
  /-- result of `(internal_plugins / "__init__.py").is_file()` -/
  pluginsIsPackage : Bool
  /-- string form of the internal `_plugins` directory -/
  pluginsPath : String
  /-- entries yielded by `internal_plugins.glob("*")` -/
  pluginEntries : List PluginEntry
  /-- which configured plugin-directory strings name an existing absolute
  directory (the check guarding the "Not implemented yet" message) -/
  isAbsExisting : String → Bool

/-- Configuration read from the environment once per process: the
`keep_module_name_prefix` toggle and the `TASKS_LOAD_PLUGINS` toggle. -/
structure Config where
  keep : Bool
  loadPlugins : Bool
deriving DecidableEq, Repr

/-- Embedding of the task-file loop of `find_and_import_tasks`: each file is
loaded as `tasks.<stem>` through `import_with_exception_details`; a failed
load keeps the loop going; a successful one is merged with `populate`. -/
def builtinStep (env : ImportEnv) (keep : Bool) (acc : BuiltinAcc)
    (fileName : String) : BuiltinAcc :=
  let name := stem fileName
  let res := import_with_exception_details env ("tasks." ++ name) name
  match res.1 with
  | none => { acc with errs := acc.errs ++ res.2, lastModule := some none }
  | some m =>
    { ns := (populate keep acc.ns m name).1
      errs := acc.errs ++ res.2
      lastModule := some (some m) }

/-- Embedding of the whole task-file loop over the filtered glob listing. -/
def afterBuiltin (env : ImportEnv) (keep : Bool) (taskFiles : List String) :
    BuiltinAcc :=
  taskFiles.foldl (builtinStep env keep) ⟨Collection.empty, [], none⟩

/-- Embedding of the local-tasks block of `find_and_import_tasks`.  The
source calls `populate(module, name=name)` outside the `try`, so when the
`local_tasks` import raises, the call still runs on the stale loop variable
`module`: a `NameError` if it was never assigned, an `AttributeError` (from
the attribute accesses on `None` inside `populate`) if the last import
failed, and otherwise a silent re-merge of the stale module under the name
`local_tasks`.  On the failing import one stderr line naming `local_tasks`
is printed first. -/
def localPhase (env : ImportEnv) (cfg : Config) (fs : DiscoveryFS)
    (b : BuiltinAcc) (st : GlobalState) :
    Except PyError (Collection × List String × GlobalState) :=
  if fs.hasLocalTasks then
    let st1 := { st with sysPath := fs.repoToplevel :: st.sysPath }
    match env.resolve "local_tasks" with
    | .ok m => .ok ((populate cfg.keep b.ns m "local_tasks").1, b.errs, st1)
    | .raises _ =>
      match b.lastModule with
      | none => .error .nameError
      | some none => .error .attributeError
      | some (some m) =>
        .ok ((populate cfg.keep b.ns m "local_tasks").1,
          b.errs ++ ["local_tasks"], st1)
  else .ok (b.ns, b.errs, st)

/-- Embedding of one file of the loose-file fallback: the file is imported as
`tasks._plugins.<folder>.<name>` and merged with `populate`. -/
def looseFileStep (env : ImportEnv) (keep : Bool) (folderName : String)
    (acc : RunAcc) (pyName : String) : RunAcc :=
  let name := replacePy pyName
  let res := import_with_exception_details env
    ("tasks._plugins." ++ folderName ++ "." ++ name) name
  match res.1 with
  | none => { acc with errs := acc.errs ++ res.2 }
  | some m =>
    { acc with
      ns := (populate keep acc.ns m name).1
      errs := acc.errs ++ res.2 }

/-- Embedding of one iteration of the plugin loop of
`find_and_import_tasks`: a regular `.py` file is imported as a single-file
plugin; a folder is imported as a package and, exactly when its `populate`
reports no addition, falls back to loose-file loading (appending the folder
to `sys.path` and importing every `.py` file directly inside it); any other
entry is skipped.  A failed folder import additionally prints a skip line on
stdout. -/
def pluginEntryStep (env : ImportEnv) (keep : Bool) (acc : RunAcc)
    (e : PluginEntry) : RunAcc :=
  if e.kind == EntryKind.file && endsWithPy e.name then
    let name := replacePy e.name
    let res := import_with_exception_details env ("tasks._plugins." ++ name) name
    match res.1 with
    | none => { acc with errs := acc.errs ++ res.2 }
    | some m =>
      { acc with
        ns := (populate keep acc.ns m name).1
        errs := acc.errs ++ res.2 }
  else if e.kind == EntryKind.folder then
    let name := "tasks._plugins." ++ e.name
    let res := import_with_exception_details env name name
    match res.1 with
    | none => { acc with errs := acc.errs ++ res.2, out := acc.out ++ ["Skipping"] }
    | some m =>
      let pr := populate keep acc.ns m name
      let acc1 := { acc with ns := pr.1, errs := acc.errs ++ res.2 }
      if pr.2 then acc1
      else
        let acc2 :=
          { acc1 with st := { acc1.st with sysPath := acc1.st.sysPath ++ [e.name] } }
        e.pyFiles.foldl (looseFileStep env keep e.name) acc2
  else
    acc

/-- Embedding of the plugin block of `find_and_import_tasks`: first the loop
over `TASKS_PLUGIN_DIRS`, which only prints a "Not implemented yet" line on
stdout for each absolute existing directory; then, when the internal
`_plugins` directory exists and is a package, its path is appended to the
process-wide `TASKS_PLUGIN_DIRS` and every entry except `__init__.py` is
handled by `pluginEntryStep`.  With plugin loading disabled the block is
skipped entirely. -/
def pluginPhase (env : ImportEnv) (cfg : Config) (fs : DiscoveryFS)
    (ns : Collection) (errs : List String) (st : GlobalState) : RunAcc :=
  if cfg.loadPlugins then
    let out0 := (st.pluginDirs.filter fs.isAbsExisting).map
      (fun d => "Not implemented yet. Skipping " ++ d)
    let acc0 : RunAcc := ⟨ns, errs, out0, st⟩
    if fs.pluginsDirExists && fs.pluginsIsPackage then
      let acc1 :=
        { acc0 with st := { st with pluginDirs := st.pluginDirs ++ [fs.pluginsPath] } }
      (fs.pluginEntries.filter fun e => e.name != "__init__.py").foldl
        (pluginEntryStep env cfg.keep) acc1
    else acc0
  else ⟨ns, errs, [], st⟩

/-- Embedding of `find_and_import_tasks` of `_discovery.py` for a `Path`
discovery root: filter the glob listing with `is_a_task_module`, run the
task-file loop, then the local-tasks block, then the plugin block. -/
def find_and_import_tasks (env : ImportEnv) (fs : DiscoveryFS) (cfg : Config)
    (st : GlobalState) : Except PyError RunAcc :=
  match localPhase env cfg fs
      (afterBuiltin env cfg.keep (fs.rootPyFiles.filter is_a_task_module)) st with
  | .error e => .error e
  | .ok (ns1, errs1, st1) => .ok (pluginPhase env cfg fs ns1 errs1 st1)

/-- Left-biased choice on optional values, used to state how a later merge
shadows an earlier binding. -/
def firstSome (a b : Option α) : Option α :=
  match a with
  | some v => some v
  | none => b

/-- Import environment built from a finite table; anything not listed fails
with an `ImportError`, like a module that does not exist. -/
def envOf (table : List (String × ImportResult)) : ImportEnv :=
  ⟨fun s => (findKey s table).getD (.raises .importError)⟩

/-- Empty starting global state for the concrete runs. -/
def st0 : GlobalState := ⟨[], []⟩

/-- Base filesystem with nothing present, updated per concrete scenario. -/
def fsBase : DiscoveryFS :=
  ⟨[], false, "top", false, false, "plugins", [], fun _ => false⟩

/-- Scenario for claim one: one built-in submodule raising an exception that
is neither an `ImportError` nor a `SyntaxError`. -/
def envC1 : ImportEnv := envOf [("taskfiles.bad", .raises .otherError)]

/-- Scenario for the claim-one witness: one good task file and one whose
load raises an arbitrary exception. -/
def envW1 : ImportEnv := envOf
  [("tasks.a", .ok ⟨"a", [.task ⟨"p", 1⟩]⟩), ("tasks.k", .raises .otherError)]

/-- Filesystem for the claim-one witness. -/
def fsW1 : DiscoveryFS := { fsBase with rootPyFiles := ["a.py", "k.py"] }

/-- Scenario for the claim-two witness: built-in module `git` and the local
override both define task `x`, with distinct implementations. -/
def envW2 : ImportEnv := envOf
  [("taskfiles.git", .ok ⟨"git", [.task ⟨"x", 1⟩]⟩),
   ("local_tasks", .ok ⟨"local_tasks", [.task ⟨"x", 2⟩]⟩)]

/-- Scenario for claim three: only `local_tasks` exists and defines task
`x`. -/
def envC3 : ImportEnv := envOf [("local_tasks", .ok ⟨"local_tasks", [.task ⟨"x", 7⟩]⟩)]

/-- Filesystem for claim three: a repo toplevel with a `local_tasks.py`. -/
def fsC3 : DiscoveryFS := { fsBase with hasLocalTasks := true }

/-- Scenario for claim four, first run: no candidate task files at all, and a
`local_tasks` whose import raises. -/
def envC4a : ImportEnv := envOf [("local_tasks", .raises .otherError)]

/-- Filesystem for claim four, first run. -/
def fsC4a : DiscoveryFS := { fsBase with hasLocalTasks := true }

/-- Scenario for claim four, second run: one good candidate `m.py` and a
missing `local_tasks`. -/
def envC4b : ImportEnv := envOf
  [("tasks.m", .ok ⟨"m", [.task ⟨"y", 3⟩]⟩), ("local_tasks", .raises .importError)]

/-- Filesystem for claim four, second run. -/
def fsC4b : DiscoveryFS := { fsBase with rootPyFiles := ["m.py"], hasLocalTasks := true }

/-- Scenario for claim six: the spec's `toolkit` plugin package importing
fine but defining zero tasks, with `toolkit/extra.py` defining task `lint`. -/
def envC6 : ImportEnv := envOf
  [("tasks._plugins.toolkit", .ok ⟨"toolkit", []⟩),
   ("tasks._plugins.toolkit.extra", .ok ⟨"extra", [.task ⟨"lint", 9⟩]⟩)]

/-- Filesystem for claim six: the internal plugin directory holds the
`toolkit` folder with one source file. -/
def fsC6 : DiscoveryFS :=
  { fsBase with
    pluginsDirExists := true
    pluginsIsPackage := true
    pluginEntries := [⟨"toolkit", .folder, ["extra.py"]⟩] }

/-- Scenario for claim eight: a private-prefixed plugin file defining a
task. -/
def envC8 : ImportEnv := envOf
  [("tasks._plugins._sneaky", .ok ⟨"_sneaky", [.task ⟨"boo", 4⟩]⟩)]

/-- Filesystem for claim eight: the internal plugin directory holds only the
private-prefixed file. -/
def fsC8 : DiscoveryFS :=
  { fsBase with
    pluginsDirExists := true
    pluginsIsPackage := true
    pluginEntries := [⟨"_sneaky.py", .file, []⟩] }

/-- Scenario for the claim-nine witness: one built-in task file and an empty
internal plugin package. -/
def envW9 : ImportEnv := envOf [("tasks.a", .ok ⟨"a", [.task ⟨"p", 1⟩]⟩)]

/-- Filesystem for the claim-nine witness. -/
def fsW9 : DiscoveryFS :=
  { fsBase with
    rootPyFiles := ["a.py"]
    pluginsDirExists := true
    pluginsIsPackage := true }

/-- Result of the first claim-nine run, including the mutated global state. -/
def rW9 : RunAcc := ⟨Collection.mk [("p", ⟨"p", 1⟩)] [], [], [], ⟨["plugins"], []⟩⟩

/-! Basic lemmas about the association-list operations and the namespace. -/

theorem findKey_setKey (k k' : String) (v : α) (l : List (String × α)) :
    findKey k (setKey k' v l) = if k' = k then some v else findKey k l := by
  induction l with
  | nil => simp [setKey, findKey]
  | cons hd tl ih =>
    obtain ⟨k1, v1⟩ := hd
    by_cases h1 : k1 = k'
    · subst h1
      by_cases h2 : k1 = k
      · simp [setKey, findKey, h2]
      · simp [setKey, findKey, h2, show ¬ (k = k1) from fun h => h2 h.symm]
    · by_cases h2 : k1 = k
      · subst h2
        have hne : ¬ (k' = k1) := fun h => h1 h.symm
        simp [setKey, findKey, h1, hne]
      · simp [setKey, findKey, h1, h2, ih]

theorem mem_setKey {p : String × α} {k : String} {v : α} {l : List (String × α)}
    (h : p ∈ setKey k v l) : p = (k, v) ∨ p ∈ l := by
  induction l with
  | nil =>
    simp only [setKey, List.mem_singleton] at h
    exact Or.inl h
  | cons hd tl ih =>
    obtain ⟨k1, v1⟩ := hd
    by_cases h1 : k1 = k
    · simp only [setKey, if_pos h1] at h
      rcases List.mem_cons.mp h with h2 | h2
      · exact Or.inl h2
      · exact Or.inr (List.mem_cons_of_mem _ h2)
    · simp only [setKey, if_neg h1] at h
      rcases List.mem_cons.mp h with h2 | h2
      · exact Or.inr (by rw [h2]; exact List.mem_cons_self _ _)
      · rcases ih h2 with h3 | h3
        · exact Or.inl h3
        · exact Or.inr (List.mem_cons_of_mem _ h3)

theorem tasks_mk (ts : List (String × Task)) (cs : List (String × Collection)) :
    (Collection.mk ts cs).tasks = ts := rfl

theorem collections_mk (ts : List (String × Task)) (cs : List (String × Collection)) :
    (Collection.mk ts cs).collections = cs := rfl

theorem tasks_addTask (c : Collection) (t : Task) :
    (c.addTask t).tasks = setKey t.name t c.tasks := rfl

theorem collections_addTask (c : Collection) (t : Task) :
    (c.addTask t).collections = c.collections := rfl

theorem tasks_addCollection (c : Collection) (n : String) (sub : Collection) :
    (c.addCollection n sub).tasks = c.tasks := rfl

theorem collections_addCollection (c : Collection) (n : String) (sub : Collection) :
    (c.addCollection n sub).collections = setKey n sub c.collections := rfl

theorem findTask_addTask (c : Collection) (t : Task) (x : String) :
    (c.addTask t).findTask x = if t.name = x then some t else c.findTask x := by
  simp [Collection.findTask, Collection.addTask, tasks_mk, findKey_setKey]

theorem findSub_addTask (c : Collection) (t : Task) (x : String) :
    (c.addTask t).findSub x = c.findSub x := rfl

theorem findTask_addCollection (c : Collection) (n : String) (sub : Collection)
    (x : String) : (c.addCollection n sub).findTask x = c.findTask x := rfl

theorem findSub_addCollection (c : Collection) (n : String) (sub : Collection)
    (x : String) :
    (c.addCollection n sub).findSub x = if n = x then some sub else c.findSub x := by
  simp [Collection.findSub, Collection.addCollection, collections_mk, findKey_setKey]

theorem resolve_addTask_isSome (c : Collection) (t : Task) (p : List String)
    (h : (c.resolve p).isSome = true) : ((c.addTask t).resolve p).isSome = true := by
  match p with
  | [] => simp [Collection.resolve] at h
  | [n] =>
    simp only [Collection.resolve] at h ⊢
    rw [findTask_addTask]
    by_cases hn : t.name = n
    · simp [hn]
    · simp [hn, h]
  | n :: m :: rest =>
    simp only [Collection.resolve] at h ⊢
    rw [findSub_addTask]
    exact h

theorem resolve_addTasks_isSome (c : Collection) (ts : List Task) (p : List String)
    (h : (c.resolve p).isSome = true) : ((addTasks c ts).resolve p).isSome = true := by
  induction ts generalizing c with
  | nil => exact h
  | cons t ts ih =>
    have h1 : ((c.addTask t).resolve p).isSome = true := resolve_addTask_isSome c t p h
    simpa [addTasks, List.foldl_cons] using ih (c.addTask t) h1

theorem populate_false_eq (ns : Collection) (m : Module) (name : String) :
    populate false ns m name = (addTasks ns (moduleTasks m), !(moduleTasks m).isEmpty) := by
  show m.members.foldl _ (ns, false) = _
  have key : ∀ (mems : List Member) (c : Collection) (b : Bool),
      mems.foldl
        (fun acc mem =>
          match mem with
          | .task t => (acc.1.addTask t, true)
          | .other => acc)
        (c, b) =
      (addTasks c (mems.filterMap fun mem =>
        match mem with
        | .task t => some t
        | .other => none),
       b || !(mems.filterMap fun mem =>
        match mem with
        | .task t => some t
        | .other => none).isEmpty) := by
    intro mems
    induction mems with
    | nil => intro c b; simp [addTasks]
    | cons hd tl ih =>
      intro c b
      cases hd with
      | task t => simp [List.foldl_cons, ih, addTasks]
      | other => simp [List.foldl_cons, ih, addTasks]
  simpa [moduleTasks] using key m.members ns false

theorem firstSome_some (v : α) (b : Option α) : firstSome (some v) b = some v := rfl

theorem firstSome_none (b : Option α) : firstSome none b = b := rfl

theorem tasks_addTasks (c : Collection) (ts : List Task) :
    (addTasks c ts).tasks = ts.foldl (fun l t => setKey t.name t l) c.tasks := by
  induction ts generalizing c with
  | nil => rfl
  | cons t ts ih =>
    simpa [addTasks, List.foldl_cons, tasks_addTask] using ih (c.addTask t)

theorem collections_addTasks (c : Collection) (ts : List Task) :
    (addTasks c ts).collections = c.collections := by
  induction ts generalizing c with
  | nil => rfl
  | cons t ts ih =>
    simpa [addTasks, List.foldl_cons, collections_addTask] using ih (c.addTask t)

theorem findKey_taskFold_from (x : String) (ts : List Task) :
    ∀ l0 : List (String × Task),
      findKey x (ts.foldl (fun l t => setKey t.name t l) l0) =
        firstSome (findKey x (tasksFold ts)) (findKey x l0) := by
  induction ts with
  | nil => intro l0; simp [tasksFold, findKey, firstSome]
  | cons t ts ih =>
    intro l0
    have h1 := ih (setKey t.name t l0)
    have h2 := ih (setKey t.name t ([] : List (String × Task)))
    rw [List.foldl_cons, h1]
    have hfold : tasksFold (t :: ts) =
        ts.foldl (fun l u => setKey u.name u l) (setKey t.name t []) := by
      simp [tasksFold, List.foldl_cons]
    rw [hfold, h2]
    cases hF : findKey x (tasksFold ts) with
    | some u => simp [firstSome]
    | none =>
      by_cases hx : t.name = x
      · simp [firstSome, findKey_setKey, hx]
      · simp [firstSome, findKey_setKey, hx, findKey]

theorem findTask_addTasks (c : Collection) (ts : List Task) (x : String) :
    (addTasks c ts).findTask x = firstSome (findKey x (tasksFold ts)) (c.findTask x) := by
  rw [Collection.findTask, tasks_addTasks, findKey_taskFold_from]
  rfl

theorem taskFold_key_eq_name (ts : List Task) :
    ∀ l0 : List (String × Task), (∀ kv ∈ l0, kv.2.name = kv.1) →
      ∀ kv ∈ ts.foldl (fun l t => setKey t.name t l) l0, kv.2.name = kv.1 := by
  induction ts with
  | nil => intro l0 h0; simpa using h0
  | cons t ts ih =>
    intro l0 h0
    rw [List.foldl_cons]
    refine ih (setKey t.name t l0) ?_
    intro kv hkv
    rcases mem_setKey hkv with h | h
    · rw [h]
    · exact h0 kv h

theorem tasksFold_key_eq_name (ts : List Task) :
    ∀ kv ∈ tasksFold ts, kv.2.name = kv.1 := by
  refine taskFold_key_eq_name ts [] ?_
  intro kv hkv
  simp at hkv

theorem map_fst_setKey (k : String) (v : α) (l : List (String × α)) :
    (setKey k v l).map Prod.fst =
      if k ∈ l.map Prod.fst then l.map Prod.fst else l.map Prod.fst ++ [k] := by
  induction l with
  | nil => simp [setKey]
  | cons hd tl ih =>
    obtain ⟨k1, v1⟩ := hd
    by_cases h1 : k1 = k
    · subst h1
      simp [setKey]
    · have hne : ¬ (k = k1) := fun h => h1 h.symm
      by_cases h2 : k ∈ tl.map Prod.fst
      · simp [setKey, h1, ih, h2, hne]
      · simp [setKey, h1, ih, h2, hne]

theorem nodup_map_fst_setKey (k : String) (v : α) (l : List (String × α))
    (h : (l.map Prod.fst).Nodup) : ((setKey k v l).map Prod.fst).Nodup := by
  rw [map_fst_setKey]
  by_cases hk : k ∈ l.map Prod.fst
  · simpa [hk] using h
  · rw [if_neg hk]
    refine List.Nodup.append h (List.nodup_singleton k) ?_
    intro a ha hb
    simp at hb
    subst hb
    exact hk ha

theorem nodup_taskFold (ts : List Task) :
    ∀ l0 : List (String × Task), (l0.map Prod.fst).Nodup →
      ((ts.foldl (fun l t => setKey t.name t l) l0).map Prod.fst).Nodup := by
  induction ts with
  | nil => intro l0 h0; simpa using h0
  | cons t ts ih =>
    intro l0 h0
    rw [List.foldl_cons]
    exact ih (setKey t.name t l0) (nodup_map_fst_setKey t.name t l0 h0)

theorem nodup_tasksFold (ts : List Task) : ((tasksFold ts).map Prod.fst).Nodup := by
  refine nodup_taskFold ts [] ?_
  simp

theorem foldl_addTask_skip (pairs : List (String × Task)) (x : String) :
    ∀ ns : Collection, (∀ kv ∈ pairs, kv.2.name = kv.1) → x ∉ pairs.map Prod.fst →
      ((pairs.foldl (fun acc kv => acc.addTask kv.2) ns).findTask x = ns.findTask x
        ∧ (pairs.foldl (fun acc kv => acc.addTask kv.2) ns).collections = ns.collections) := by
  induction pairs with
  | nil => intro ns _ _; exact ⟨rfl, rfl⟩
  | cons hd tl ih =>
    intro ns hinv hx
    obtain ⟨k, v⟩ := hd
    have hk : v.name = k := hinv (k, v) (List.mem_cons_self _ _)
    have hx1 : ¬ (x = k) := by
      intro h
      exact hx (by simp [h])
    have hx2 : x ∉ tl.map Prod.fst := by
      intro h
      exact hx (by simp [h])
    have hrest := ih (ns.addTask v) (fun kv hkv => hinv kv (List.mem_cons_of_mem _ hkv)) hx2
    rw [List.foldl_cons]
    refine ⟨?_, ?_⟩
    · have hkx : ¬ (k = x) := fun h => hx1 h.symm
      rw [hrest.1, findTask_addTask, hk]
      simp [hkx]
    · rw [hrest.2, collections_addTask]

theorem foldl_addTask_find (pairs : List (String × Task)) (x : String) (t : Task) :
    ∀ ns : Collection, (∀ kv ∈ pairs, kv.2.name = kv.1) → (pairs.map Prod.fst).Nodup →
      findKey x pairs = some t →
      (pairs.foldl (fun acc kv => acc.addTask kv.2) ns).findTask x = some t := by
  induction pairs with
  | nil => intro ns _ _ h; simp [findKey] at h
  | cons hd tl ih =>
    intro ns hinv hnd h
    obtain ⟨k, v⟩ := hd
    have hk : v.name = k := hinv (k, v) (List.mem_cons_self _ _)
    rw [List.foldl_cons]
    by_cases hx : k = x
    · subst hx
      simp only [findKey, if_pos rfl] at h
      have hnotin : k ∉ tl.map Prod.fst := by
        simp only [List.map_cons, List.nodup_cons] at hnd
        exact hnd.1
      have hskip := (foldl_addTask_skip tl k (ns.addTask v)
        (fun kv hkv => hinv kv (List.mem_cons_of_mem _ hkv)) hnotin).1
      rw [hskip, findTask_addTask, hk]
      simp only [if_true] at h
      simp [Option.some.inj h]
    · simp only [findKey, if_neg hx] at h
      simp only [List.map_cons, List.nodup_cons] at hnd
      exact ih (ns.addTask v) (fun kv hkv => hinv kv (List.mem_cons_of_mem _ hkv)) hnd.2 h

theorem collections_foldl_addTask (pairs : List (String × Task)) :
    ∀ ns : Collection,
      (pairs.foldl (fun acc kv => acc.addTask kv.2) ns).collections = ns.collections := by
  induction pairs with
  | nil => intro ns; rfl
  | cons hd tl ih =>
    intro ns
    rw [List.foldl_cons, ih, collections_addTask]

/-! Lemmas about the task-file loop of `find_and_import_tasks`. -/

theorem builtinStep_fail (env : ImportEnv) (keep : Bool) (ns : Collection)
    (errs : List String) (lm : Option (Option Module)) (f : String) (e : ExcKind)
    (h : env.resolve ("tasks." ++ stem f) = .raises e) :
    builtinStep env keep ⟨ns, errs, lm⟩ f = ⟨ns, errs ++ [stem f], some none⟩ := by
  simp [builtinStep, import_with_exception_details, h]

theorem builtinStep_ok (env : ImportEnv) (keep : Bool) (ns : Collection)
    (errs : List String) (lm : Option (Option Module)) (f : String) (m : Module)
    (h : env.resolve ("tasks." ++ stem f) = .ok m) :
    builtinStep env keep ⟨ns, errs, lm⟩ f =
      ⟨(populate keep ns m (stem f)).1, errs, some (some m)⟩ := by
  simp [builtinStep, import_with_exception_details, h]

theorem builtinFold_errs (env : ImportEnv) (keep : Bool) (files : List String) :
    ∀ (ns : Collection) (errs : List String) (lm : Option (Option Module)),
      files.foldl (builtinStep env keep) ⟨ns, errs, lm⟩ =
        ⟨(files.foldl (builtinStep env keep) ⟨ns, [], lm⟩).ns,
         errs ++ (files.foldl (builtinStep env keep) ⟨ns, [], lm⟩).errs,
         (files.foldl (builtinStep env keep) ⟨ns, [], lm⟩).lastModule⟩ := by
  induction files with
  | nil => intro ns errs lm; simp
  | cons f rest ih =>
    intro ns errs lm
    cases hres : env.resolve ("tasks." ++ stem f) with
    | raises e =>
      rw [List.foldl_cons, List.foldl_cons,
        builtinStep_fail env keep ns errs lm f e hres,
        builtinStep_fail env keep ns [] lm f e hres, List.nil_append]
      rw [ih ns (errs ++ [stem f]) (some none), ih ns [stem f] (some none)]
      simp
    | ok m =>
      rw [List.foldl_cons, List.foldl_cons,
        builtinStep_ok env keep ns errs lm f m hres,
        builtinStep_ok env keep ns [] lm f m hres]
      rw [ih _ errs (some (some m)), ih _ [] (some (some m))]

theorem builtinFold_lm (env : ImportEnv) (keep : Bool) (files : List String) :
    ∀ (ns : Collection) (errs : List String) (lm1 lm2 : Option (Option Module)),
      (files.foldl (builtinStep env keep) ⟨ns, errs, lm1⟩).ns =
        (files.foldl (builtinStep env keep) ⟨ns, errs, lm2⟩).ns
      ∧ (files.foldl (builtinStep env keep) ⟨ns, errs, lm1⟩).errs =
        (files.foldl (builtinStep env keep) ⟨ns, errs, lm2⟩).errs := by
  induction files with
  | nil => intro ns errs lm1 lm2; exact ⟨rfl, rfl⟩
  | cons f rest ih =>
    intro ns errs lm1 lm2
    cases hres : env.resolve ("tasks." ++ stem f) with
    | raises e =>
      rw [List.foldl_cons, List.foldl_cons,
        builtinStep_fail env keep ns errs lm1 f e hres,
        builtinStep_fail env keep ns errs lm2 f e hres]
      exact ⟨rfl, rfl⟩
    | ok m =>
      rw [List.foldl_cons, List.foldl_cons,
        builtinStep_ok env keep ns errs lm1 f m hres,
        builtinStep_ok env keep ns errs lm2 f m hres]
      exact ⟨rfl, rfl⟩

theorem builtinFold_count (env : ImportEnv) (keep : Bool) (files : List String) :
    ∀ (ns : Collection) (lm : Option (Option Module)) (s : String),
      s ∉ files.map stem →
      ((files.foldl (builtinStep env keep) ⟨ns, [], lm⟩).errs).count s = 0 := by
  induction files with
  | nil => intro ns lm s _; rfl
  | cons f rest ih =>
    intro ns lm s hs
    have hs1 : ¬ (stem f = s) := by
      intro h
      exact hs (by simp [h])
    have hs2 : s ∉ rest.map stem := by
      intro h
      exact hs (by simp [h])
    cases hres : env.resolve ("tasks." ++ stem f) with
    | raises e =>
      rw [List.foldl_cons, builtinStep_fail env keep ns [] lm f e hres,
        List.nil_append]
      rw [builtinFold_errs env keep rest ns [stem f] (some none)]
      simp only [List.count_append]
      rw [ih ns (some none) s hs2]
      simp [List.count_cons, hs1]
    | ok m =>
      rw [List.foldl_cons, builtinStep_ok env keep ns [] lm f m hres]
      exact ih _ (some (some m)) s hs2

theorem builtin_fold_isolated (env : ImportEnv) (keep : Bool) (A B : List String)
    (k : String) (e : ExcKind)
    (hk : env.resolve ("tasks." ++ stem k) = .raises e) :
    ∃ tail,
      ((A ++ k :: B).foldl (builtinStep env keep) ⟨Collection.empty, [], none⟩).ns =
        ((A ++ B).foldl (builtinStep env keep) ⟨Collection.empty, [], none⟩).ns
      ∧ ((A ++ k :: B).foldl (builtinStep env keep) ⟨Collection.empty, [], none⟩).errs =
        (A.foldl (builtinStep env keep) ⟨Collection.empty, [], none⟩).errs ++ stem k :: tail
      ∧ ((A ++ B).foldl (builtinStep env keep) ⟨Collection.empty, [], none⟩).errs =
        (A.foldl (builtinStep env keep) ⟨Collection.empty, [], none⟩).errs ++ tail
      ∧ tail = (B.foldl (builtinStep env keep)
          ⟨(A.foldl (builtinStep env keep) ⟨Collection.empty, [], none⟩).ns, [],
            some none⟩).errs := by
  set a := A.foldl (builtinStep env keep) ⟨Collection.empty, [], none⟩ with ha
  set R := B.foldl (builtinStep env keep) ⟨a.ns, [], some none⟩ with hR
  set R2 := B.foldl (builtinStep env keep) ⟨a.ns, [], a.lastModule⟩ with hR2
  have hstep : builtinStep env keep a k = ⟨a.ns, a.errs ++ [stem k], some none⟩ :=
    builtinStep_fail env keep a.ns a.errs a.lastModule k e hk
  have hfold1 : (A ++ k :: B).foldl (builtinStep env keep) ⟨Collection.empty, [], none⟩ =
      ⟨R.ns, (a.errs ++ [stem k]) ++ R.errs, R.lastModule⟩ := by
    rw [List.foldl_append, List.foldl_cons, ← ha, hstep,
      builtinFold_errs env keep B a.ns (a.errs ++ [stem k]) (some none), ← hR]
  have hfold2 : (A ++ B).foldl (builtinStep env keep) ⟨Collection.empty, [], none⟩ =
      ⟨R2.ns, a.errs ++ R2.errs, R2.lastModule⟩ := by
    rw [List.foldl_append, ← ha,
      show B.foldl (builtinStep env keep) a =
        B.foldl (builtinStep env keep) ⟨a.ns, a.errs, a.lastModule⟩ from rfl,
      builtinFold_errs env keep B a.ns a.errs a.lastModule, ← hR2]
  have hlm := builtinFold_lm env keep B a.ns [] (some none) a.lastModule
  rw [← hR, ← hR2] at hlm
  refine ⟨R.errs, ?_, ?_, ?_, rfl⟩
  · rw [hfold1, hfold2]
    exact hlm.1
  · rw [hfold1]
    simp
  · rw [hfold2]
    rw [hlm.2]

/-! Lemmas about `import_submodules`. -/

theorem importSub_error_absorb (env : ImportEnv) (pkg : String) (names : List String)
    (e : PyError) :
    names.foldl (importSubStep env pkg) (.error e) = .error e := by
  induction names with
  | nil => rfl
  | cons n rest ih => simpa [List.foldl_cons, importSubStep] using ih

theorem importSub_logs (env : ImportEnv) (pkg : String) (names : List String) :
    ∀ (mods : List (String × Module)) (logs : List String),
      names.foldl (importSubStep env pkg) (.ok (mods, logs)) =
        match names.foldl (importSubStep env pkg) (.ok (mods, [])) with
        | .ok (m, t) => .ok (m, logs ++ t)
        | .error e => .error e := by
  induction names with
  | nil => intro mods logs; simp
  | cons n rest ih =>
    intro mods logs
    rw [List.foldl_cons, List.foldl_cons]
    cases hres : env.resolve (pkg ++ "." ++ n) with
    | ok m =>
      simp only [importSubStep, hres]
      exact ih (setKey n m mods) logs
    | raises e =>
      cases e with
      | importError =>
        simp only [importSubStep, hres, List.nil_append]
        rw [ih mods (logs ++ [n]), ih mods [n]]
        cases hbase : rest.foldl (importSubStep env pkg) (.ok (mods, [])) with
        | ok pr => obtain ⟨m, t⟩ := pr; simp
        | error e' => simp
      | syntaxError =>
        simp only [importSubStep, hres, List.nil_append]
        rw [ih mods (logs ++ [n]), ih mods [n]]
        cases hbase : rest.foldl (importSubStep env pkg) (.ok (mods, [])) with
        | ok pr => obtain ⟨m, t⟩ := pr; simp
        | error e' => simp
      | otherError =>
        simp only [importSubStep, hres]
        rw [importSub_error_absorb]

/-! Lemmas about `populate` and the plugin phase. -/

theorem populate_snd (keep : Bool) (ns : Collection) (m : Module) (name : String) :
    (populate keep ns m name).2 = (keep || !(moduleTasks m).isEmpty) := by
  cases keep with
  | true => simp [populate]
  | false =>
    rw [populate_false_eq]
    simp

theorem looseFileStep_ns (env : ImportEnv) (keep : Bool) (fn : String)
    (a1 a2 : RunAcc) (p : String) (h : a1.ns = a2.ns) :
    (looseFileStep env keep fn a1 p).ns = (looseFileStep env keep fn a2 p).ns := by
  cases hres : env.resolve ("tasks._plugins." ++ fn ++ "." ++ replacePy p) with
  | ok m => simp [looseFileStep, import_with_exception_details, hres, h]
  | raises e2 => simp [looseFileStep, import_with_exception_details, hres, h]

theorem looseFold_ns (env : ImportEnv) (keep : Bool) (fn : String)
    (pyFiles : List String) :
    ∀ (a1 a2 : RunAcc), a1.ns = a2.ns →
      (pyFiles.foldl (looseFileStep env keep fn) a1).ns =
        (pyFiles.foldl (looseFileStep env keep fn) a2).ns := by
  induction pyFiles with
  | nil => intro a1 a2 h; exact h
  | cons p rest ih =>
    intro a1 a2 h
    rw [List.foldl_cons, List.foldl_cons]
    exact ih _ _ (looseFileStep_ns env keep fn a1 a2 p h)

theorem pluginEntryStep_ns (env : ImportEnv) (keep : Bool) (a1 a2 : RunAcc)
    (e : PluginEntry) (h : a1.ns = a2.ns) :
    (pluginEntryStep env keep a1 e).ns = (pluginEntryStep env keep a2 e).ns := by
  by_cases h1 : (e.kind == EntryKind.file && endsWithPy e.name) = true
  · simp only [pluginEntryStep, if_pos h1]
    cases hres : env.resolve ("tasks._plugins." ++ replacePy e.name) with
    | ok m => simp [import_with_exception_details, hres, h]
    | raises e2 => simp [import_with_exception_details, hres, h]
  · by_cases h2 : (e.kind == EntryKind.folder) = true
    · simp only [pluginEntryStep, if_neg h1, if_pos h2]
      cases hres : env.resolve ("tasks._plugins." ++ e.name) with
      | raises e2 => simp [import_with_exception_details, hres, h]
      | ok m =>
        simp only [import_with_exception_details, hres]
        rw [h]
        cases hp : (populate keep a2.ns m ("tasks._plugins." ++ e.name)).2 with
        | true => simp [hp]
        | false =>
          simp only [hp, Bool.false_eq_true, if_false]
          refine looseFold_ns env keep e.name e.pyFiles _ _ ?_
          simp
    · simp only [pluginEntryStep, if_neg h1, if_neg h2]
      exact h

theorem pluginFold_ns (env : ImportEnv) (keep : Bool) (entries : List PluginEntry) :
    ∀ (a1 a2 : RunAcc), a1.ns = a2.ns →
      (entries.foldl (pluginEntryStep env keep) a1).ns =
        (entries.foldl (pluginEntryStep env keep) a2).ns := by
  induction entries with
  | nil => intro a1 a2 h; exact h
  | cons e rest ih =>
    intro a1 a2 h
    rw [List.foldl_cons, List.foldl_cons]
    exact ih _ _ (pluginEntryStep_ns env keep a1 a2 e h)

theorem pluginPhase_ns (env : ImportEnv) (cfg : Config) (fs : DiscoveryFS)
    (ns : Collection) (errs1 errs2 : List String) (st1 st2 : GlobalState) :
    (pluginPhase env cfg fs ns errs1 st1).ns = (pluginPhase env cfg fs ns errs2 st2).ns := by
  cases hlp : cfg.loadPlugins with
  | false => simp [pluginPhase, hlp]
  | true =>
    cases hpk : (fs.pluginsDirExists && fs.pluginsIsPackage) with
    | false => simp [pluginPhase, hlp, hpk]
    | true =>
      simp only [pluginPhase, hlp, hpk, if_true]
      refine pluginFold_ns env cfg.keep _ _ _ ?_
      rfl

theorem localPhase_proj (env : ImportEnv) (cfg : Config) (fs : DiscoveryFS)
    (b : BuiltinAcc) (st1 st2 : GlobalState) :
    (localPhase env cfg fs b st1).map (fun pr => (pr.1, pr.2.1)) =
      (localPhase env cfg fs b st2).map (fun pr => (pr.1, pr.2.1)) := by
  cases hfs : fs.hasLocalTasks with
  | false => simp [localPhase, hfs, Except.map]
  | true =>
    simp only [localPhase, hfs, if_true]
    cases env.resolve "local_tasks" with
    | ok m => simp [Except.map]
    | raises e =>
      cases b.lastModule with
      | none => simp
      | some om =>
        cases om with
        | none => simp
        | some m => simp [Except.map]

theorem find_ns_st (env : ImportEnv) (fs : DiscoveryFS) (cfg : Config)
    (st1 st2 : GlobalState) :
    (find_and_import_tasks env fs cfg st1).map RunAcc.ns =
      (find_and_import_tasks env fs cfg st2).map RunAcc.ns := by
  unfold find_and_import_tasks
  have hp := localPhase_proj env cfg fs
    (afterBuiltin env cfg.keep (fs.rootPyFiles.filter is_a_task_module)) st1 st2
  cases h1 : localPhase env cfg fs
      (afterBuiltin env cfg.keep (fs.rootPyFiles.filter is_a_task_module)) st1 with
  | error e =>
    cases h2 : localPhase env cfg fs
        (afterBuiltin env cfg.keep (fs.rootPyFiles.filter is_a_task_module)) st2 with
    | error e2 =>
      rw [h1, h2] at hp
      simpa [Except.map] using hp
    | ok pr =>
      rw [h1, h2] at hp
      simp [Except.map] at hp
  | ok pr1 =>
    cases h2 : localPhase env cfg fs
        (afterBuiltin env cfg.keep (fs.rootPyFiles.filter is_a_task_module)) st2 with
    | error e2 =>
      rw [h1, h2] at hp
      simp [Except.map] at hp
    | ok pr2 =>
      rw [h1, h2] at hp
      obtain ⟨nsA, errsA, stA⟩ := pr1
      obtain ⟨nsB, errsB, stB⟩ := pr2
      simp only [Except.map, Except.ok.injEq, Prod.mk.injEq] at hp
      obtain ⟨hns, herrs⟩ := hp
      subst hns
      subst herrs
      simpa [Except.map] using pluginPhase_ns env cfg fs nsA errsA errsA stA stB

/-! Helper characterisations of whole runs. -/

theorem afterBuiltin_def (env : ImportEnv) (keep : Bool) (files : List String) :
    afterBuiltin env keep files =
      files.foldl (builtinStep env keep) ⟨Collection.empty, [], none⟩ := rfl

theorem run_simple (env : ImportEnv) (fs : DiscoveryFS) (cfg : Config)
    (st : GlobalState) (h4 : fs.hasLocalTasks = false) (h5 : cfg.loadPlugins = false) :
    find_and_import_tasks env fs cfg st =
      .ok ⟨(afterBuiltin env cfg.keep (fs.rootPyFiles.filter is_a_task_module)).ns,
           (afterBuiltin env cfg.keep (fs.rootPyFiles.filter is_a_task_module)).errs,
           [], st⟩ := by
  simp [find_and_import_tasks, localPhase, pluginPhase, h4, h5]

/-! Theorems for the individual claims. -/

/-- Claim C2: with flattening on (split off), when a built-in module defines a
task named `x` and the successfully imported local-override module also
defines `x`, the composed namespace of `get_root_ns` resolves `x` to the
local override's implementation — the local phase runs after the built-in
phase and the later flat merge silently overwrites the earlier entry, no
error raised. -/
theorem c2_last_write_wins (env : ImportEnv) (names : List String)
    (mods : List (String × Module)) (logs : List String) (L : Module)
    (x : String) (tA tB : Task)
    (hsub : import_submodules env "taskfiles" names = .ok (mods, logs))
    (hbuilt : (rootBuiltin false mods).findTask x = some tA)
    (hlocal : env.resolve "local_tasks" = .ok L)
    (hdef : findKey x (tasksFold (moduleTasks L)) = some tB) :
    ∃ ns logs2, get_root_ns env false names = .ok (ns, logs2)
      ∧ ns.findTask x = some tB := by
  refine ⟨addTasks (rootBuiltin false mods) (moduleTasks L), logs, ?_, ?_⟩
  · simp [get_root_ns, hsub, hlocal]
  · rw [findTask_addTasks, hdef]
    rfl

/-- Witness for claim C2 at a concrete scenario: built-in `git` defines
`x` with implementation 1, the local override defines `x` with
implementation 2, and the override wins. -/
theorem c2_last_write_wins_witness :
    ∃ ns logs2, get_root_ns envW2 false ["git"] = .ok (ns, logs2)
      ∧ ns.findTask "x" = some ⟨"x", 2⟩ :=
  c2_last_write_wins envW2 ["git"] [("git", ⟨"git", [.task ⟨"x", 1⟩]⟩)] []
    ⟨"local_tasks", [.task ⟨"x", 2⟩]⟩ "x" ⟨"x", 1⟩ ⟨"x", 2⟩
    (by rfl) (by rfl) (by rfl) (by rfl)

/-- Claim C3 as amended: in `get_root_ns` the successfully imported
local-override module's tasks are merged flat (reachable unqualified)
regardless of the split setting; in `find_and_import_tasks` the local module
goes through the configured merge strategy instead, so with prefixing on its
tasks land under a `local_tasks` sub-namespace (see the counterexample). -/
theorem c3_local_flat (env : ImportEnv) (split : Bool) (names : List String)
    (mods : List (String × Module)) (logs : List String) (L : Module)
    (x : String) (t : Task)
    (hsub : import_submodules env "taskfiles" names = .ok (mods, logs))
    (hlocal : env.resolve "local_tasks" = .ok L)
    (hdef : findKey x (tasksFold (moduleTasks L)) = some t) :
    ∃ ns logs2, get_root_ns env split names = .ok (ns, logs2)
      ∧ ns.findTask x = some t := by
  refine ⟨addTasks (rootBuiltin split mods) (moduleTasks L), logs, ?_, ?_⟩
  · simp [get_root_ns, hsub, hlocal]
  · rw [findTask_addTasks, hdef]
    rfl

/-- Witness for claim C3 with the split (prefixed) setting on. -/
theorem c3_local_flat_witness :
    ∃ ns logs2, get_root_ns envC3 true [] = .ok (ns, logs2)
      ∧ ns.findTask "x" = some ⟨"x", 7⟩ :=
  c3_local_flat envC3 true [] [] [] ⟨"local_tasks", [.task ⟨"x", 7⟩]⟩ "x" ⟨"x", 7⟩
    (by rfl) (by rfl) (by rfl)

/-- Counterexample to claim C3 as stated: in `find_and_import_tasks` with the
name-prefix setting on, a successfully imported `local_tasks` defining `x`
does not make `x` reachable unqualified — it is only reachable under the
`local_tasks` sub-namespace. -/
theorem c3_counterexample :
    (find_and_import_tasks envC3 fsC3 ⟨true, false⟩ st0).map
        (fun r => (r.ns.findTask "x", r.ns.resolve ["local_tasks", "x"])) =
      .ok (none, some ⟨"x", 7⟩) := by rfl

/-- Claim C5 as amended: the merge operation never raises, and in flat mode
its boolean result is true exactly when the module has a task member; in
prefixed mode it returns true unconditionally, even for a module with zero
tasks (a possibly-empty sub-namespace is registered). -/
theorem c5_merge_flag (ns : Collection) (m : Module) (name : String) :
    ((populate false ns m name).2 = !(moduleTasks m).isEmpty)
    ∧ ((populate true ns m name).2 = true) := by
  constructor
  · rw [populate_false_eq]
  · rfl

/-- Counterexample to claim C5 as stated: merging a module that defines zero
tasks with the name-prefix setting on returns true although no task was
added (the task table is unchanged). -/
theorem c5_counterexample :
    (populate true Collection.empty ⟨"m", []⟩ "m").2 = true
    ∧ ((populate true Collection.empty ⟨"m", []⟩ "m").1).tasks = Collection.empty.tasks :=
  ⟨rfl, rfl⟩

/-- Claim C7 as amended: in the prefixed built-in merge of `get_root_ns`, a
submodule keyed by the reserved marker `core` has its tasks merged flat into
the parent (collections untouched) while every other submodule is registered
as a sub-namespace named after the module; the file-based merge (`populate`
of `_discovery.py`) applies no such exception — it registers a sub-namespace
whatever the name, `core` included. -/
theorem c7_core_toplevel :
    (∀ (ns : Collection) (m : Module) (x : String) (t : Task),
      (Collection.fromModule m).findTask x = some t →
        (rootStep true ns ("core", m)).findTask x = some t
        ∧ (rootStep true ns ("core", m)).collections = ns.collections)
    ∧ (∀ (ns : Collection) (name : String) (m : Module), name ≠ "core" →
        rootStep true ns (name, m) = ns.addCollection m.name (Collection.fromModule m))
    ∧ (∀ (ns : Collection) (m : Module) (name : String),
        populate true ns m name = (ns.addCollection name (Collection.fromModule m), true)) := by
  refine ⟨?_, ?_, ?_⟩
  · intro ns m x t h
    have hstep : rootStep true ns ("core", m) =
        (Collection.fromModule m).tasks.foldl (fun acc kv => acc.addTask kv.2) ns := by
      simp [rootStep]
    have hinv : ∀ kv ∈ (Collection.fromModule m).tasks, kv.2.name = kv.1 :=
      tasksFold_key_eq_name (moduleTasks m)
    have hnd : ((Collection.fromModule m).tasks.map Prod.fst).Nodup :=
      nodup_tasksFold (moduleTasks m)
    rw [hstep]
    exact ⟨foldl_addTask_find _ x t ns hinv hnd h, collections_foldl_addTask _ ns⟩
  · intro ns name m h
    simp [rootStep, h]
  · intro ns m name
    rfl

/-- Witness for claim C7: a concrete `core` module's task is reachable
unqualified, a `git` module becomes a sub-namespace, and the file-based merge
sub-namespaces even a module named `core`. -/
theorem c7_core_toplevel_witness :
    ((rootStep true Collection.empty ("core", ⟨"core", [.task ⟨"boo", 5⟩]⟩)).findTask "boo"
        = some ⟨"boo", 5⟩
      ∧ (rootStep true Collection.empty ("core", ⟨"core", [.task ⟨"boo", 5⟩]⟩)).collections
        = Collection.empty.collections)
    ∧ rootStep true Collection.empty ("git", ⟨"git", []⟩)
        = Collection.empty.addCollection "git" (Collection.fromModule ⟨"git", []⟩)
    ∧ populate true Collection.empty ⟨"core", []⟩ "core"
        = (Collection.empty.addCollection "core" (Collection.fromModule ⟨"core", []⟩), true) :=
  ⟨c7_core_toplevel.1 Collection.empty ⟨"core", [.task ⟨"boo", 5⟩]⟩ "boo" ⟨"boo", 5⟩ (by rfl),
   c7_core_toplevel.2.1 Collection.empty "git" ⟨"git", []⟩ (by decide),
   c7_core_toplevel.2.2 Collection.empty ⟨"core", []⟩ "core"⟩

/-- Counterexample to claim C7 as stated: the file-based merge of
`_discovery.py` in prefixed mode puts the tasks of a module whose declared
identity is `core` under a `core` sub-namespace instead of merging them flat
into the parent. -/
theorem c7_counterexample :
    ((populate true Collection.empty ⟨"core", [.task ⟨"boo", 5⟩]⟩ "core").1).findTask "boo"
        = none
    ∧ ((populate true Collection.empty ⟨"core", [.task ⟨"boo", 5⟩]⟩ "core").1).resolve
        ["core", "boo"] = some ⟨"boo", 5⟩ :=
  ⟨rfl, rfl⟩

/-- Claim C10 as amended: in flat mode every merge only adds or replaces task
entries, so every path resolvable before a merge stays resolvable after it;
in prefixed mode a merge under an already-used module name replaces the whole
sub-namespace, and a previously resolvable qualified name can stop
resolving (second and third conjuncts exhibit this). -/
theorem c10_merge_monotone :
    (∀ (ns : Collection) (m : Module) (name : String) (p : List String),
      (ns.resolve p).isSome = true →
        (((populate false ns m name).1).resolve p).isSome = true)
    ∧ ((populate true (populate true Collection.empty ⟨"m", [.task ⟨"t", 1⟩]⟩ "m").1
          ⟨"m", [.task ⟨"u", 2⟩]⟩ "m").1).resolve ["m", "t"] = none
    ∧ ((populate true Collection.empty ⟨"m", [.task ⟨"t", 1⟩]⟩ "m").1).resolve ["m", "t"]
        = some ⟨"t", 1⟩ := by
  refine ⟨?_, rfl, rfl⟩
  intro ns m name p h
  have hpf : (populate false ns m name).1 = addTasks ns (moduleTasks m) := by
    rw [populate_false_eq]
  rw [hpf]
  exact resolve_addTasks_isSome ns (moduleTasks m) p h

/-- Witness for claim C10: a flat merge on a namespace holding a root task
and a sub-namespace keeps a qualified path resolvable. -/
theorem c10_merge_monotone_witness :
    ((((populate false
        (Collection.mk [("a", ⟨"a", 1⟩)] [("s", Collection.mk [("b", ⟨"b", 2⟩)] [])])
        ⟨"m", [.task ⟨"a", 9⟩]⟩ "m").1).resolve ["s", "b"]).isSome = true) :=
  c10_merge_monotone.1
    (Collection.mk [("a", ⟨"a", 1⟩)] [("s", Collection.mk [("b", ⟨"b", 2⟩)] [])])
    ⟨"m", [.task ⟨"a", 9⟩]⟩ "m" ["s", "b"] (by rfl)

/-- Counterexample to claim C10 as stated: a second prefixed-mode merge under
the same module name replaces the earlier sub-namespace, and a task name that
resolved before the merge no longer resolves after it. -/
theorem c10_counterexample :
    ((populate true (populate true Collection.empty ⟨"n", [.task ⟨"t1", 1⟩]⟩ "n").1
        ⟨"n", [.task ⟨"t2", 2⟩]⟩ "n").1).resolve ["n", "t1"] = none
    ∧ ((populate true Collection.empty ⟨"n", [.task ⟨"t1", 1⟩]⟩ "n").1).resolve ["n", "t1"]
        = some ⟨"t1", 1⟩ :=
  ⟨rfl, rfl⟩

/-- Claim C4: evaluation of the embedded `find_and_import_tasks` at the
failing inputs.  First conjunct: with no surviving candidate file and a
`local_tasks` import that raises, the stray `populate(module, ...)` call
sitting outside the `try` block raises a `NameError` that propagates out of
discovery.  Second conjunct: with one good candidate `m.py` and a failing
`local_tasks` import, the failure is reported but the phase then silently
re-merges the stale module `m` under the name `local_tasks`, so the phase
contributes a spurious entry instead of nothing. -/
theorem c4_local_failure_bug :
    find_and_import_tasks envC4a fsC4a ⟨false, false⟩ st0 = .error .nameError
    ∧ (find_and_import_tasks envC4b fsC4b ⟨true, false⟩ st0).map
        (fun r => (r.errs, r.ns.resolve ["local_tasks", "y"], r.ns.findSub "local_tasks"))
      = .ok (["local_tasks"], some ⟨"y", 3⟩,
          some (Collection.fromModule ⟨"m", [.task ⟨"y", 3⟩]⟩)) :=
  ⟨rfl, rfl⟩

/-- Claim C6 as amended: in flat mode, a plugin folder that imports as a
package and contributes zero tasks triggers the loose-file fallback (the
folder joins `sys.path` and every `.py` file inside is imported and merged),
while a package route contributing at least one task leaves the accumulator
after its own merge alone — no per-file loading, no `sys.path` change; in
prefixed mode the package merge always reports success, so the fallback is
never taken (see the counterexample).  The third conjunct runs the spec's
`toolkit`/`extra.py` scenario end to end in flat mode: `lint` is found. -/
theorem c6_empty_package_fallback :
    (∀ (env : ImportEnv) (acc : RunAcc) (e : PluginEntry) (P : Module),
      e.kind = .folder →
      env.resolve ("tasks._plugins." ++ e.name) = .ok P →
      moduleTasks P = [] →
      pluginEntryStep env false acc e =
        e.pyFiles.foldl (looseFileStep env false e.name)
          { acc with st := { acc.st with sysPath := acc.st.sysPath ++ [e.name] } })
    ∧ (∀ (env : ImportEnv) (acc : RunAcc) (e : PluginEntry) (P : Module),
      e.kind = .folder →
      env.resolve ("tasks._plugins." ++ e.name) = .ok P →
      moduleTasks P ≠ [] →
      pluginEntryStep env false acc e =
        { acc with ns := (populate false acc.ns P ("tasks._plugins." ++ e.name)).1 })
    ∧ ((find_and_import_tasks envC6 fsC6 ⟨false, true⟩ st0).map
        (fun r => (r.ns.findTask "lint", r.st.sysPath)) = .ok (some ⟨"lint", 9⟩, ["toolkit"])) := by
  refine ⟨?_, ?_, by rfl⟩
  · intro env acc e P hkind hok hzero
    have hc1 : (e.kind == EntryKind.file && endsWithPy e.name) = false := by
      rw [hkind]
      rfl
    have hc2 : (e.kind == EntryKind.folder) = true := by
      rw [hkind]
      rfl
    have hpop : populate false acc.ns P ("tasks._plugins." ++ e.name) = (acc.ns, false) := by
      rw [populate_false_eq, hzero]
      rfl
    simp [pluginEntryStep, hc1, hc2, import_with_exception_details, hok, hpop]
  · intro env acc e P hkind hok hne
    have hc1 : (e.kind == EntryKind.file && endsWithPy e.name) = false := by
      rw [hkind]
      rfl
    have hc2 : (e.kind == EntryKind.folder) = true := by
      rw [hkind]
      rfl
    have hsnd : (populate false acc.ns P ("tasks._plugins." ++ e.name)).2 = true := by
      rw [populate_snd]
      cases hmt : moduleTasks P with
      | nil => exact absurd hmt hne
      | cons a l => rfl
    simp [pluginEntryStep, hc1, hc2, import_with_exception_details, hok, hsnd]

/-- Witness for claim C6: the zero-task `toolkit` package triggers per-file
loading, and a one-task package does not. -/
theorem c6_empty_package_fallback_witness :
    pluginEntryStep envC6 false ⟨Collection.empty, [], [], st0⟩ ⟨"toolkit", .folder, ["extra.py"]⟩ =
      (["extra.py"] : List String).foldl (looseFileStep envC6 false "toolkit")
        { (⟨Collection.empty, [], [], st0⟩ : RunAcc) with
          st := { st0 with sysPath := st0.sysPath ++ ["toolkit"] } }
    ∧ pluginEntryStep (envOf [("tasks._plugins.pkg", .ok ⟨"pkg", [.task ⟨"z", 1⟩]⟩)]) false
        ⟨Collection.empty, [], [], st0⟩ ⟨"pkg", .folder, []⟩ =
      { (⟨Collection.empty, [], [], st0⟩ : RunAcc) with
        ns := (populate false Collection.empty ⟨"pkg", [.task ⟨"z", 1⟩]⟩
          "tasks._plugins.pkg").1 } :=
  ⟨c6_empty_package_fallback.1 envC6 ⟨Collection.empty, [], [], st0⟩
      ⟨"toolkit", .folder, ["extra.py"]⟩ ⟨"toolkit", []⟩ rfl (by rfl) rfl,
   c6_empty_package_fallback.2.1 (envOf [("tasks._plugins.pkg", .ok ⟨"pkg", [.task ⟨"z", 1⟩]⟩)])
      ⟨Collection.empty, [], [], st0⟩ ⟨"pkg", .folder, []⟩ ⟨"pkg", [.task ⟨"z", 1⟩]⟩
      rfl (by rfl) (by simp [moduleTasks])⟩

/-- Counterexample to claim C6 as stated: in prefixed mode the `toolkit`
package contributes zero tasks, yet the per-file fallback is not attempted —
the final namespace has no root task, only an empty `tasks._plugins.toolkit`
sub-namespace, `lint` is nowhere, and `sys.path` is untouched. -/
theorem c6_counterexample :
    (find_and_import_tasks envC6 fsC6 ⟨true, true⟩ st0).map
        (fun r => (r.ns.tasks, r.ns.findSub "tasks._plugins.toolkit", r.st.sysPath)) =
      .ok ([], some (Collection.mk [] []), []) := by rfl

/-- Claim C8 as amended: the exclusion predicate rejects exactly the
private-prefixed and reserved filenames, and an excluded candidate in the
task-file phase contributes nothing at all — the whole run is identical to
the run with the file absent; the plugin phase, however, excludes only
`__init__.py`, so a private-prefixed plugin file does contribute (see the
counterexample). -/
theorem c8_reserved_exclusion :
    (∀ f : String, is_a_task_module f = false ↔
      (startsWithUnderscore f = true ∨ f = "tasks.py" ∨ f = "conftest.py"))
    ∧ (∀ (env : ImportEnv) (fs : DiscoveryFS) (cfg : Config) (st : GlobalState)
        (A B : List String) (f : String),
      fs.rootPyFiles = A ++ f :: B →
      is_a_task_module f = false →
      find_and_import_tasks env fs cfg st =
        find_and_import_tasks env { fs with rootPyFiles := A ++ B } cfg st) := by
  constructor
  · intro f
    by_cases h1 : startsWithUnderscore f = true
    · simp [is_a_task_module, h1]
    · by_cases h2 : f = "tasks.py"
      · simp [is_a_task_module, h1, h2]
      · by_cases h3 : f = "conftest.py"
        · simp [is_a_task_module, h1, h2, h3]
        · simp [is_a_task_module, h1, h2, h3]
  · intro env fs cfg st A B f h1 hf
    have hfil : ({ fs with rootPyFiles := A ++ B } : DiscoveryFS).rootPyFiles.filter
        is_a_task_module = fs.rootPyFiles.filter is_a_task_module := by
      rw [h1]
      simp [List.filter_append, List.filter_cons, hf]
    unfold find_and_import_tasks
    rw [hfil]
    rfl

/-- Witness for claim C8: a private-prefixed candidate file is excluded and
removing it from the listing leaves the run unchanged. -/
theorem c8_reserved_exclusion_witness :
    is_a_task_module "_x.py" = false
    ∧ find_and_import_tasks envC8 { fsBase with rootPyFiles := ["_x.py"] } ⟨false, false⟩ st0
      = find_and_import_tasks envC8
          { ({ fsBase with rootPyFiles := ["_x.py"] } : DiscoveryFS) with
            rootPyFiles := ([] : List String) ++ [] } ⟨false, false⟩ st0 :=
  ⟨(c8_reserved_exclusion.1 "_x.py").mpr (Or.inl (by rfl)),
   c8_reserved_exclusion.2 envC8 { fsBase with rootPyFiles := ["_x.py"] } ⟨false, false⟩ st0
     [] [] "_x.py" (by rfl) ((c8_reserved_exclusion.1 "_x.py").mpr (Or.inl (by rfl)))⟩

/-- Counterexample to claim C8 as stated: with plugins on, the
private-prefixed plugin file `_sneaky.py` contributes the task `boo` to the
composed namespace — the plugin loop excludes only `__init__.py`. -/
theorem c8_counterexample :
    (find_and_import_tasks envC8 fsC8 ⟨false, true⟩ st0).map
        (fun r => r.ns.findTask "boo") = .ok (some ⟨"boo", 4⟩) := by rfl

/-- Claim C9: running `find_and_import_tasks` a second time from the mutated
global state the first run left behind (same import environment and
filesystem — nothing changed on disk, and module caching makes repeated
loads deterministic) succeeds and returns a namespace equal to the first
one: the same task names resolve to the same winning implementations. -/
theorem c9_idempotent (env : ImportEnv) (fs : DiscoveryFS) (cfg : Config)
    (st : GlobalState) (r : RunAcc)
    (h : find_and_import_tasks env fs cfg st = .ok r) :
    ∃ r2, find_and_import_tasks env fs cfg r.st = .ok r2 ∧ r2.ns = r.ns := by
  have hmap := find_ns_st env fs cfg st r.st
  rw [h] at hmap
  cases h2 : find_and_import_tasks env fs cfg r.st with
  | error e =>
    rw [h2] at hmap
    simp [Except.map] at hmap
  | ok r2 =>
    rw [h2] at hmap
    simp only [Except.map, Except.ok.injEq] at hmap
    exact ⟨r2, rfl, hmap.symm⟩

/-- Witness for claim C9: a run with one built-in task file and plugin
loading on (which mutates the plugin-directory list) rerun from the mutated
state yields the same namespace. -/
theorem c9_idempotent_witness :
    ∃ r2, find_and_import_tasks envW9 fsW9 ⟨false, true⟩ rW9.st = .ok r2 ∧ r2.ns = rW9.ns :=
  c9_idempotent envW9 fsW9 ⟨false, true⟩ st0 rW9 (by rfl)

/-- Claim C1 as amended: in the file-based discovery of `_discovery.py`, a
candidate module raising ANY exception on import is fully isolated — the run
still succeeds, its namespace equals that of a run without the failing file,
exactly one stderr diagnostic references the failing module, and nothing is
written to stdout for it.  In the package walker `import_submodules` of
`src/taskfiles/__init__.py`, the same isolation (module dropped, exactly one
extra logged line naming it, identical imported-module table) holds only
when the exception is an `ImportError` or a `SyntaxError`; any other
exception propagates out of discovery as the third conjunct states and the
counterexample exhibits. -/
theorem c1_import_isolation :
    (∀ (env : ImportEnv) (fs : DiscoveryFS) (cfg : Config) (st : GlobalState)
        (A B : List String) (k : String) (e : ExcKind),
      fs.rootPyFiles = A ++ k :: B →
      env.resolve ("tasks." ++ stem k) = .raises e →
      is_a_task_module k = true →
      fs.hasLocalTasks = false →
      cfg.loadPlugins = false →
      stem k ∉ (A ++ B).map stem →
      ∃ r1 r2,
        find_and_import_tasks env fs cfg st = .ok r1
        ∧ find_and_import_tasks env { fs with rootPyFiles := A ++ B } cfg st = .ok r2
        ∧ r1.ns = r2.ns
        ∧ r1.errs.count (stem k) = 1
        ∧ r2.errs.count (stem k) = 0
        ∧ r1.out = r2.out)
    ∧ (∀ (env : ImportEnv) (pkg : String) (A B : List String) (k : String)
        (mods : List (String × Module)) (logs : List String) (e : ExcKind),
      import_submodules env pkg A = .ok (mods, logs) →
      env.resolve (pkg ++ "." ++ k) = .raises e →
      e ≠ .importError → e ≠ .syntaxError →
      import_submodules env pkg (A ++ k :: B) = .error (.exc e))
    ∧ (∀ (env : ImportEnv) (pkg : String) (A B : List String) (k : String)
        (mods mods2 : List (String × Module)) (logs logs2 : List String) (e : ExcKind),
      import_submodules env pkg A = .ok (mods, logs) →
      env.resolve (pkg ++ "." ++ k) = .raises e →
      (e = .importError ∨ e = .syntaxError) →
      import_submodules env pkg (A ++ B) = .ok (mods2, logs2) →
      ∃ tail, logs2 = logs ++ tail
        ∧ import_submodules env pkg (A ++ k :: B) = .ok (mods2, logs ++ k :: tail)) := by
  refine ⟨?_, ?_, ?_⟩
  · intro env fs cfg st A B k e h1 h2 h3 h4 h5 h6
    have hrun1 := run_simple env fs cfg st h4 h5
    have hrun2 := run_simple env { fs with rootPyFiles := A ++ B } cfg st h4 h5
    have hfil1 : fs.rootPyFiles.filter is_a_task_module =
        (A.filter is_a_task_module) ++ k :: (B.filter is_a_task_module) := by
      rw [h1]
      simp [List.filter_append, List.filter_cons, h3]
    have hfil2 : ({ fs with rootPyFiles := A ++ B } : DiscoveryFS).rootPyFiles.filter
        is_a_task_module = (A.filter is_a_task_module) ++ (B.filter is_a_task_module) := by
      simp [List.filter_append]
    obtain ⟨tail, hns, herr1, herr2, htail⟩ :=
      builtin_fold_isolated env cfg.keep (A.filter is_a_task_module)
        (B.filter is_a_task_module) k e h2
    have hA : stem k ∉ (A.filter is_a_task_module).map stem := by
      intro hm
      rcases List.mem_map.mp hm with ⟨g, hg, hgs⟩
      exact h6 (List.mem_map.mpr
        ⟨g, List.mem_append.mpr (Or.inl (List.mem_of_mem_filter hg)), hgs⟩)
    have hB : stem k ∉ (B.filter is_a_task_module).map stem := by
      intro hm
      rcases List.mem_map.mp hm with ⟨g, hg, hgs⟩
      exact h6 (List.mem_map.mpr
        ⟨g, List.mem_append.mpr (Or.inr (List.mem_of_mem_filter hg)), hgs⟩)
    have hcA := builtinFold_count env cfg.keep (A.filter is_a_task_module)
      Collection.empty none (stem k) hA
    have hcB := builtinFold_count env cfg.keep (B.filter is_a_task_module)
      ((A.filter is_a_task_module).foldl (builtinStep env cfg.keep)
        ⟨Collection.empty, [], none⟩).ns (some none) (stem k) hB
    refine ⟨_, _, hrun1, hrun2, ?_, ?_, ?_, rfl⟩
    · show (afterBuiltin env cfg.keep (fs.rootPyFiles.filter is_a_task_module)).ns =
        (afterBuiltin env cfg.keep
          (({ fs with rootPyFiles := A ++ B } : DiscoveryFS).rootPyFiles.filter
            is_a_task_module)).ns
      rw [afterBuiltin_def, afterBuiltin_def, hfil1, hfil2]
      exact hns
    · show ((afterBuiltin env cfg.keep
          (fs.rootPyFiles.filter is_a_task_module)).errs).count (stem k) = 1
      rw [afterBuiltin_def, hfil1, herr1, htail]
      simp [List.count_append, List.count_cons, hcA, hcB]
    · show ((afterBuiltin env cfg.keep
          (({ fs with rootPyFiles := A ++ B } : DiscoveryFS).rootPyFiles.filter
            is_a_task_module)).errs).count (stem k) = 0
      rw [afterBuiltin_def, hfil2, herr2, htail]
      simp [List.count_append, hcA, hcB]
  · intro env pkg A B k mods logs e hA hk hni hns
    have hstep : importSubStep env pkg (.ok (mods, logs)) k = .error (.exc e) := by
      cases e with
      | importError => exact absurd rfl hni
      | syntaxError => exact absurd rfl hns
      | otherError => simp [importSubStep, hk]
    simp only [import_submodules, List.foldl_append] at hA ⊢
    rw [hA, List.foldl_cons, hstep, importSub_error_absorb]
  · intro env pkg A B k mods mods2 logs logs2 e hA hk he hAB
    have hstep : importSubStep env pkg (.ok (mods, logs)) k = .ok (mods, logs ++ [k]) := by
      rcases he with he | he <;> subst he <;> simp [importSubStep, hk]
    simp only [import_submodules, List.foldl_append] at hA hAB ⊢
    rw [hA] at hAB
    rw [importSub_logs env pkg B mods logs] at hAB
    cases hbase : B.foldl (importSubStep env pkg) (Except.ok (mods, [])) with
    | error e2 =>
      rw [hbase] at hAB
      simp at hAB
    | ok pr =>
      obtain ⟨m2, t⟩ := pr
      rw [hbase] at hAB
      simp only [Except.ok.injEq, Prod.mk.injEq] at hAB
      obtain ⟨hm, hl⟩ := hAB
      refine ⟨t, hl.symm, ?_⟩
      rw [hA, List.foldl_cons, hstep, importSub_logs env pkg B mods (logs ++ [k]), hbase]
      simp [hm, List.append_assoc]

/-- Witness for claim C1 at concrete scenarios: a failing `k.py` next to a
good `a.py` in the file loop; an `otherError` propagating out of
`import_submodules`; and a missing submodule being dropped with one logged
line. -/
theorem c1_import_isolation_witness :
    (∃ r1 r2,
      find_and_import_tasks envW1 fsW1 ⟨false, false⟩ st0 = .ok r1
      ∧ find_and_import_tasks envW1 { fsW1 with rootPyFiles := ["a.py"] ++ [] }
          ⟨false, false⟩ st0 = .ok r2
      ∧ r1.ns = r2.ns
      ∧ r1.errs.count (stem "k.py") = 1
      ∧ r2.errs.count (stem "k.py") = 0
      ∧ r1.out = r2.out)
    ∧ import_submodules envW1 "tasks" (["a"] ++ "k" :: []) = .error (.exc .otherError)
    ∧ (∃ tail, ([] : List String) = [] ++ tail
        ∧ import_submodules envW1 "tasks" (["a"] ++ "zz" :: []) =
          .ok ([("a", ⟨"a", [.task ⟨"p", 1⟩]⟩)], [] ++ "zz" :: tail)) :=
  ⟨c1_import_isolation.1 envW1 fsW1 ⟨false, false⟩ st0 ["a.py"] [] "k.py" .otherError
      rfl (by rfl) (by rfl) rfl rfl (by decide),
   c1_import_isolation.2.1 envW1 "tasks" ["a"] [] "k"
      [("a", ⟨"a", [.task ⟨"p", 1⟩]⟩)] [] .otherError (by rfl) (by rfl)
      (by decide) (by decide),
   c1_import_isolation.2.2 envW1 "tasks" ["a"] [] "zz"
      [("a", ⟨"a", [.task ⟨"p", 1⟩]⟩)] [("a", ⟨"a", [.task ⟨"p", 1⟩]⟩)] [] []
      .importError (by rfl) (by rfl) (Or.inl rfl) (by rfl)⟩

/-- Counterexample to claim C1 as stated: a built-in submodule raising an
exception that is neither an `ImportError` nor a `SyntaxError` makes
`get_root_ns` propagate the exception instead of isolating it — no namespace
is produced at all. -/
theorem c1_counterexample :
    get_root_ns envC1 true ["bad"] = .error (.exc .otherError) := by rfl
